import Mathlib

/-!
Verification development for the pulsar repository: a shallow embedding of
the two source modules
  src/modules/network-monitor/src/lib.rs
  src/crates/modules/rules-engine/src/engine.rs
together with proofs about the embedded definitions.

External collaborators (the nix address types, the dns-parser crate, the
filesystem, the YAML deserializer, the DSL condition compiler and the
validatron matcher) are modelled as explicit function parameters or as
small structures mirroring the shapes the source code constructs.
-/

namespace Pulsar

/-! Section 1: address model for the network monitor.

The Rust source uses std::net::SocketAddr (the generic representation) and
nix SockaddrIn / SockaddrIn6 (the internal representation inside Addr).
A std SocketAddrV6 carries ip, port, flowinfo and scope_id; a nix
SockaddrIn6 stores all four as well.  A nix SockaddrIn stores the IPv4
address; its ip accessor returns the 32-bit value in host byte order and
its port accessor the port. Octets and ports are modelled as Nat. -/

/-- Rust std Ipv4Addr: four octets, most significant first. -/
structure Ipv4Addr where
  o0 : Nat
  o1 : Nat
  o2 : Nat
  o3 : Nat
deriving DecidableEq

/-- Rust std SocketAddrV4: an IPv4 address and a port. -/
structure SocketAddrV4 where
  ip : Ipv4Addr
  port : Nat
deriving DecidableEq

/-- Rust std SocketAddrV6: ip (128-bit value), port, flowinfo, scope_id. -/
structure SocketAddrV6 where
  ip : Nat
  port : Nat
  flowinfo : Nat
  scopeId : Nat
deriving DecidableEq

/-- Rust std SocketAddr: tagged union of the V4 and V6 socket addresses. -/
inductive SocketAddr where
  | v4 (v : SocketAddrV4)
  | v6 (v : SocketAddrV6)
deriving DecidableEq

/-- nix SockaddrIn, as observed through its accessors: the ip accessor
yields the IPv4 address as a 32-bit host-byte-order integer, the port
accessor yields the port. -/
structure SockaddrIn where
  addr : Nat
  port : Nat
deriving DecidableEq

/-- nix SockaddrIn6: stores ip, port, flowinfo and scope_id of a
sockaddr_in6. -/
structure SockaddrIn6 where
  ip : Nat
  port : Nat
  flowinfo : Nat
  scopeId : Nat
deriving DecidableEq

/-- nix conversion From SocketAddrV4 for SockaddrIn: the stored 32-bit
value, read back in host byte order, is o0 shifted by 24 plus o1 shifted
by 16 plus o2 shifted by 8 plus o3; the port is preserved. -/
def SockaddrIn.ofV4 (v : SocketAddrV4) : SockaddrIn :=
  ⟨v.ip.o0 * 2 ^ 24 + v.ip.o1 * 2 ^ 16 + v.ip.o2 * 2 ^ 8 + v.ip.o3, v.port⟩

/-- nix conversion From SocketAddrV6 for SockaddrIn6: ip, port, flowinfo
and scope_id are all stored. -/
def SockaddrIn6.ofV6 (v : SocketAddrV6) : SockaddrIn6 :=
  ⟨v.ip, v.port, v.flowinfo, v.scopeId⟩

/-- Addr from lib.rs: tagged union over the nix IPv4/IPv6 socket types. -/
inductive Addr where
  | v4 (v : SockaddrIn)
  | v6 (v : SockaddrIn6)
deriving DecidableEq

/-- From Addr for SocketAddr (lib.rs lines 97-113).  The V4 arm splits the
host-order 32-bit value into four octets with shifts and casts to u8
(hence the mod 256); the V6 arm calls SocketAddr::new on ip and port,
which constructs a SocketAddrV6 whose flowinfo and scope_id are 0. -/
def Addr.toSocketAddr : Addr → SocketAddr
  | .v4 v =>
    .v4 ⟨⟨(v.addr >>> 24) % 256, (v.addr >>> 16) % 256, (v.addr >>> 8) % 256, v.addr % 256⟩,
      v.port⟩
  | .v6 v => .v6 ⟨v.ip, v.port, 0, 0⟩

/-- From SocketAddr for Addr (lib.rs lines 115-122): delegates to the nix
conversions. -/
def Addr.ofSocketAddr : SocketAddr → Addr
  | .v4 v => .v4 (SockaddrIn.ofV4 v)
  | .v6 v => .v6 (SockaddrIn6.ofV6 v)

/-! Section 2: network events and payloads. -/

/-- Proto from lib.rs: TCP or UDP. -/
inductive Proto where
  | tcp
  | udp
deriving DecidableEq

/-- Result of the Rust expression that tests whether proto matches
Proto::TCP. -/
def Proto.isTcp : Proto → Bool
  | .tcp => true
  | .udp => false

/-- MAX_DATA_SIZE from lib.rs: capacity of the capture buffer. -/
def MAX_DATA_SIZE : Nat := 4096

/-- NetworkEvent from lib.rs.  The DataArray capture buffer is modelled as
a list of byte values; data_len is the separately reported logical byte
count (a u32 in the source); pids are modelled as Nat. -/
inductive NetworkEvent where
  | bind (addr : Addr)
  | connect (dst : Addr)
  | accept (src : Addr) (dst : Addr)
  | send (src : Addr) (dst : Addr) (data : List Nat) (dataLen : Nat) (proto : Proto)
  | receive (src : Addr) (dst : Addr) (data : List Nat) (dataLen : Nat) (proto : Proto)
  | close (originalPid : Nat) (src : Addr) (dst : Addr)
deriving DecidableEq

/-- DnsQuestion from pulsar-core, as constructed in lib.rs: three string
fields name, qtype, qclass. -/
structure DnsQuestion where
  name : String
  qtype : String
  qclass : String
deriving DecidableEq

/-- DnsAnswer from pulsar-core, as constructed in lib.rs: name, class,
ttl, data. -/
structure DnsAnswer where
  name : String
  cls : String
  ttl : Nat
  data : String
deriving DecidableEq

/-- Modelled from the spec: the pulsar-core Payload variants that the two
source modules construct or dispatch on (pulsar-core itself is not under
src).  The field sets are exactly those used by the construction sites in
lib.rs: Send and Receive carry source, destination, the logical length
and an is_tcp flag; Close carries only source and destination; the DNS
variants carry the question and answer lists. -/
inductive Payload where
  | bind (address : SocketAddr)
  | connect (destination : SocketAddr)
  | accept (source : SocketAddr) (destination : SocketAddr)
  | send (source : SocketAddr) (destination : SocketAddr) (len : Nat) (isTcp : Bool)
  | receive (source : SocketAddr) (destination : SocketAddr) (len : Nat) (isTcp : Bool)
  | close (source : SocketAddr) (destination : SocketAddr)
  | dnsQuery (questions : List DnsQuestion)
  | dnsResponse (answers : List DnsAnswer) (questions : List DnsQuestion)
deriving DecidableEq

/-- From NetworkEvent for Payload (lib.rs lines 193-241).  Note the Send
and Receive arms bind data with a wildcard (the capture buffer is not put
into the Payload) and the Close arm explicitly discards original_pid. -/
def NetworkEvent.toPayload : NetworkEvent → Payload
  | .bind addr => .bind (Addr.toSocketAddr addr)
  | .connect dst => .connect (Addr.toSocketAddr dst)
  | .accept src dst => .accept (Addr.toSocketAddr src) (Addr.toSocketAddr dst)
  | .send src dst _ dataLen proto =>
    .send (Addr.toSocketAddr src) (Addr.toSocketAddr dst) dataLen proto.isTcp
  | .receive src dst _ dataLen proto =>
    .receive (Addr.toSocketAddr src) (Addr.toSocketAddr dst) dataLen proto.isTcp
  | .close _ src dst => .close (Addr.toSocketAddr src) (Addr.toSocketAddr dst)

/-! Section 3: DNS reconstruction. -/

/-- A question of a parsed dns-parser packet, observed through the string
renderings that lib.rs applies to its fields. -/
structure RawDnsQuestion where
  qname : String
  qtype : String
  qclass : String
deriving DecidableEq

/-- An answer of a parsed dns-parser packet, observed through the string
renderings that lib.rs applies to its fields; ttl is a u32. -/
structure RawDnsAnswer where
  name : String
  cls : String
  ttl : Nat
  data : String
deriving DecidableEq

/-- A successfully parsed dns-parser Packet: its question and answer
lists. -/
structure DnsPacket where
  questions : List RawDnsQuestion
  answers : List RawDnsAnswer
deriving DecidableEq

/-- BpfEvent from bpf-common: pid, timestamp and the typed payload. -/
structure BpfEvent where
  pid : Nat
  timestamp : Nat
  payload : NetworkEvent
deriving DecidableEq

/-- The first match in collect_dns_if_any: Send and Receive expose their
capture buffer, every other variant returns early with no payload. -/
def dnsData : NetworkEvent → Option (List Nat)
  | .send _ _ data _ _ => some data
  | .receive _ _ data _ _ => some data
  | _ => none

/-- Conversion applied to each parsed question in collect_dns_if_any. -/
def toDnsQuestion (q : RawDnsQuestion) : DnsQuestion :=
  ⟨q.qname, q.qtype, q.qclass⟩

/-- Conversion applied to each parsed answer in collect_dns_if_any. -/
def toDnsAnswer (a : RawDnsAnswer) : DnsAnswer :=
  ⟨a.name, a.cls, a.ttl, a.data⟩

/-- collect_dns_if_any (lib.rs lines 246-288).  The dns-parser call is
passed in as parseDns, with parse failure as none.  The source computes
with_q and with_a, builds the converted question and answer lists, and
classifies: questions and no answers gives DnsQuery, any answers gives
DnsResponse, neither gives nothing.  An empty capture buffer returns
early before parsing. -/
def collect_dns_if_any (parseDns : List Nat → Option DnsPacket) (event : BpfEvent) :
    Option Payload :=
  match dnsData event.payload with
  | none => none
  | some data =>
    if data.isEmpty then none
    else
      match parseDns data with
      | none => none
      | some dns =>
        let withQ := !dns.questions.isEmpty
        let withA := !dns.answers.isEmpty
        let questions := dns.questions.map toDnsQuestion
        let answers := dns.answers.map toDnsAnswer
        if withQ && !withA then some (.dnsQuery questions)
        else if withA then some (.dnsResponse answers questions)
        else none

/-! Section 4: rules-engine data model (engine.rs). -/

/-- UserRule from engine.rs; the field ty models the raw Rust field named
type, which is a reserved word here. -/
structure UserRule where
  name : String
  ty : String
  condition : String
deriving DecidableEq

/-- PulsarEngineError from engine.rs.  The wrapped foreign error values
(glob PatternError, std io Error, serde_yaml Error, ValidatronError) are
modelled as strings. -/
inductive PulsarEngineError where
  | ruleListing (e : String)
  | ruleLoading (name : String) (error : String)
  | ruleParsing (filename : String) (error : String)
  | dslError (condition : String) (cause : String)
  | ruleCompile (error : String)
  | payloadTypeNotFound (s : String)
deriving DecidableEq

/-- Modelled from the spec: PayloadDiscriminant, the EventTypeKey of
pulsar-core (not under src) — a closed enumeration of payload shapes.
Exec appears in the spec vocabulary and in the engine.rs test; the rest
are the shapes constructed by the network monitor. -/
inductive PayloadDiscriminant where
  | exec
  | bind
  | connect
  | accept
  | send
  | receive
  | close
  | dnsQuery
  | dnsResponse
deriving DecidableEq

/-- Modelled from the spec: PayloadDiscriminant::from_str of pulsar-core
(not under src), the total mapping from the fixed event-type-name
vocabulary of spec section 6 to keys, with none for every unrecognized
string. -/
def PayloadDiscriminant.fromStr (s : String) : Option PayloadDiscriminant :=
  if s = "Exec" then some .exec
  else if s = "Bind" then some .bind
  else if s = "Connect" then some .connect
  else if s = "Accept" then some .accept
  else if s = "Send" then some .send
  else if s = "Receive" then some .receive
  else if s = "Close" then some .close
  else if s = "DnsQuery" then some .dnsQuery
  else if s = "DnsResponse" then some .dnsResponse
  else none

/-- PayloadDiscriminant::from of pulsar-core: the total, deterministic
classification of a payload by its shape. -/
def PayloadDiscriminant.fromPayload : Payload → PayloadDiscriminant
  | .bind _ => .bind
  | .connect _ => .connect
  | .accept _ _ => .accept
  | .send _ _ _ _ => .send
  | .receive _ _ _ _ => .receive
  | .close _ _ => .close
  | .dnsQuery _ => .dnsQuery
  | .dnsResponse _ _ => .dnsResponse

/-- ThreatMarker: the threat field content of an event header; its
internal structure is irrelevant to the engine, which only tests
presence. -/
structure ThreatMarker where
  info : String
deriving DecidableEq

/-- Modelled from the spec: the pulsar-core Event header — the engine
reads only its optional threat marker (spec section 3). -/
structure Header where
  threat : Option ThreatMarker
deriving DecidableEq

/-- Modelled from the spec: the pulsar-core Event — a header and a
payload (spec section 3). -/
structure Event where
  header : Header
  payload : Payload
deriving DecidableEq

/-- validatron Rule: a name and a condition; generic over the condition
representation (an AST after parse_rule, an evaluable predicate inside a
compiled Ruleset). -/
structure Rule (α : Type) where
  name : String
  condition : α
deriving DecidableEq

/-- Modelled from the spec: a compiled validatron Ruleset over Event
(validatron is not under src) — an ordered sequence of rules whose
compiled conditions are evaluable predicates (spec sections 3 and 4.4). -/
structure Ruleset where
  rules : List (Rule (Event → Bool))

/-- Modelled from the spec: Ruleset::matches evaluates every rule of the
set, in order, against the event and yields the rules whose predicate
holds (spec section 4.4). -/
def Ruleset.matches (rs : Ruleset) (event : Event) : List (Rule (Event → Bool)) :=
  rs.rules.filter (fun rule => rule.condition event)

/-- Association-list model of the std HashMap used by the engine, keyed
by payload discriminant. -/
def lookupKey {κ β : Type} [DecidableEq κ] : List (κ × β) → κ → Option β
  | [], _ => none
  | (k, v) :: rest, k0 => if k0 = k then some v else lookupKey rest k0

/-- PulsarEngineInternal from engine.rs: the compiled rulesets map.  The
ModuleSender is externalized: process returns the emissions instead of
performing sends. -/
structure PulsarEngineInternal where
  rulesets : List (PayloadDiscriminant × Ruleset)

/-- PulsarEngine from engine.rs (the Arc wrapper adds nothing to the
functional model). -/
structure PulsarEngine where
  internal : PulsarEngineInternal

/-- One call of ModuleSender::send_threat_derived: the triggering event,
the matched rule name, and the always-absent extra detail argument. -/
structure Emission where
  event : Event
  ruleName : String
  detail : Option Unit
deriving DecidableEq

/-- Observable trace of one PulsarEngine::process call: the emissions
performed, and the names of the rules whose predicate was applied to the
event (Ruleset::matches applies every rule of the chosen set). -/
structure ProcessTrace where
  emissions : List Emission
  applications : List String
deriving DecidableEq

/-- PulsarEngine::process (engine.rs lines 79-94): threat-marked events
are discarded before any lookup; otherwise the discriminant of the
payload selects a ruleset, absence of which yields no side effect, and
every matching rule produces one send_threat_derived call with the rule
name and None detail. -/
def PulsarEngine.process (engine : PulsarEngine) (event : Event) : ProcessTrace :=
  if event.header.threat.isNone then
    match lookupKey engine.internal.rulesets (PayloadDiscriminant.fromPayload event.payload) with
    | some ruleset =>
      ⟨(ruleset.matches event).map (fun rule => ⟨event, rule.name, none⟩),
        ruleset.rules.map (fun rule => rule.name)⟩
    | none => ⟨[], []⟩
  else ⟨[], []⟩

/-! Section 5: rule loading and compilation (engine.rs). -/

/-- RULE_EXTENSION from engine.rs line 14. -/
def RULE_EXTENSION : String := "yaml"

/-- RuleFile from engine.rs: a path rendered as a string and the file
body. -/
structure RuleFile where
  path : String
  body : String
deriving DecidableEq

/-- RuleFile::from (engine.rs lines 176-186): reading the file; an io
failure becomes RuleLoading naming the path.  The filesystem is the
readFile parameter. -/
def RuleFile.fromPath (readFile : String → Except String String) (path : String) :
    Except PulsarEngineError RuleFile :=
  match readFile path with
  | .error e => .error (.ruleLoading path e)
  | .ok body => .ok ⟨path, body⟩

/-- The first loop of load_user_rules_from_dir: read every discovered
file in order, aborting on the first read failure. -/
def collectRuleFiles (readFile : String → Except String String) :
    List String → Except PulsarEngineError (List RuleFile)
  | [] => .ok []
  | p :: rest =>
    match RuleFile.fromPath readFile p with
    | .error e => .error e
    | .ok rf =>
      match collectRuleFiles readFile rest with
      | .error e => .error e
      | .ok rfs => .ok (rf :: rfs)

/-- The second stage of load_user_rules_from_dir: deserialize every body
as a list of UserRule records, aborting on the first parse failure with
RuleParsing naming the file.  The YAML deserializer is the parseYaml
parameter. -/
def parseRuleFiles (parseYaml : String → Except String (List UserRule)) :
    List RuleFile → Except PulsarEngineError (List (List UserRule))
  | [] => .ok []
  | rf :: rest =>
    match parseYaml rf.body with
    | .error e => .error (.ruleParsing rf.path e)
    | .ok rules =>
      match parseRuleFiles parseYaml rest with
      | .error e => .error e
      | .ok rss => .ok (rules :: rss)

/-- load_user_rules_from_dir (engine.rs lines 97-120), taking the list of
paths the glob discovered (glob traversal is an external collaborator):
read all files, then parse all bodies, then concatenate per-file lists in
order. -/
def load_user_rules_from_dir (readFile : String → Except String String)
    (parseYaml : String → Except String (List UserRule)) (paths : List String) :
    Except PulsarEngineError (List UserRule) :=
  match collectRuleFiles readFile paths with
  | .error e => .error e
  | .ok ruleFiles =>
    match parseRuleFiles parseYaml ruleFiles with
    | .error e => .error e
    | .ok rules => .ok rules.flatten

/-- The glob pattern built in load_user_rules_from_dir. -/
def rulePattern (root : String) : String :=
  root ++ "/**/*." ++ RULE_EXTENSION

/-- Whether a path ends with the given suffix, stated over the underlying
character sequences. -/
def strEndsWith (p suffix : String) : Bool :=
  List.isSuffixOf suffix.data p.data

/-- Discovery model for the glob over rulePattern: a path in the
directory listing is yielded exactly when its name ends with a dot
followed by RULE_EXTENSION. -/
def discoverRuleFiles (listing : List String) : List String :=
  listing.filter (fun p => strEndsWith p ("." ++ RULE_EXTENSION))

/-- load_user_rules_from_dir composed with the glob discovery over a
directory listing. -/
def loadFromListing (readFile : String → Except String String)
    (parseYaml : String → Except String (List UserRule)) (listing : List String) :
    Except PulsarEngineError (List UserRule) :=
  load_user_rules_from_dir readFile parseYaml (discoverRuleFiles listing)

/-- The body a readFile result delivered for a path, with a default for
the error case (used only to state lemmas about all-readable runs). -/
def getBody (readFile : String → Except String String) (p : String) : String :=
  match readFile p with
  | .ok body => body
  | .error _ => ""

/-- parse_rule (engine.rs lines 140-158): resolve the raw type string to
a discriminant — failure is PayloadTypeNotFound carrying the string, and
short-circuits before the condition is ever handed to the DSL parser —
then compile the condition, a failure of which is DslError carrying the
condition text. -/
def parse_rule {α : Type} (conditionParser : String → String → Except String α)
    (userRule : UserRule) : Except PulsarEngineError (PayloadDiscriminant × Rule α) :=
  match PayloadDiscriminant.fromStr userRule.ty with
  | none => .error (.payloadTypeNotFound userRule.ty)
  | some d =>
    match conditionParser userRule.ty userRule.condition with
    | .error err => .error (.dslError userRule.condition err)
    | .ok cond => .ok (d, ⟨userRule.name, cond⟩)

/-- The collect step of parse_rules: compile every raw rule in order,
aborting on the first failure. -/
def parseRuleList {α : Type} (conditionParser : String → String → Except String α) :
    List UserRule → Except PulsarEngineError (List (PayloadDiscriminant × Rule α))
  | [] => .ok []
  | u :: rest =>
    match parse_rule conditionParser u with
    | .error e => .error e
    | .ok pr =>
      match parseRuleList conditionParser rest with
      | .error e => .error e
      | .ok prs => .ok (pr :: prs)

/-- The entry-or-insert-then-push step of the grouping loop in
parse_rules: append the value to the existing group of the key, or create
a fresh singleton group at the end. -/
def entryPush {κ β : Type} [DecidableEq κ] : List (κ × List β) → κ → β → List (κ × List β)
  | [], k, v => [(k, [v])]
  | (k1, vs) :: rest, k, v =>
    if k = k1 then (k1, vs ++ [v]) :: rest else (k1, vs) :: entryPush rest k v

/-- The grouping loop of parse_rules over the compiled pairs. -/
def groupPairs {κ β : Type} [DecidableEq κ] (l : List (κ × β)) : List (κ × List β) :=
  l.foldl (fun m kv => entryPush m kv.1 kv.2) []

/-- The values of a pair list at a key, in list order: used to state the
first-seen-order content of each group. -/
def selKey {κ β : Type} [DecidableEq κ] (l : List (κ × β)) (k : κ) : List β :=
  (l.filter (fun kv => decide (kv.1 = k))).map Prod.snd

/-- parse_rules (engine.rs lines 122-138): compile every raw rule, then
group the compiled pairs by discriminant. -/
def parse_rules {α : Type} (conditionParser : String → String → Except String α)
    (userRules : List UserRule) :
    Except PulsarEngineError (List (PayloadDiscriminant × List (Rule α))) :=
  match parseRuleList conditionParser userRules with
  | .error e => .error e
  | .ok pairs => .ok (groupPairs pairs)

/-- Outcome of PulsarEngine::new: a built engine, an error return, or the
unreachable duplicate-insertion panic. -/
inductive NewOutcome where
  | done (engine : PulsarEngine)
  | failed (e : PulsarEngineError)
  | unreachablePanic

/-- Whether a new outcome is the duplicate-insertion panic. -/
def NewOutcome.isUnreachable : NewOutcome → Bool
  | .unreachablePanic => true
  | _ => false

/-- The ruleset-building loop of PulsarEngine::new (engine.rs lines
63-72): compile each group with Ruleset::from_rules (the fromRules
parameter), wrap its failure as RuleCompile, and insert into the fresh
map; an insert that replaces an existing entry is the unreachable
panic. -/
def buildRulesets (fromRules : List (Rule (Event → Bool)) → Except String Ruleset) :
    List (PayloadDiscriminant × List (Rule (Event → Bool))) →
    List (PayloadDiscriminant × Ruleset) → NewOutcome
  | [], acc => .done ⟨⟨acc⟩⟩
  | (k, rules) :: rest, acc =>
    match fromRules rules with
    | .error e => .failed (.ruleCompile e)
    | .ok ruleset =>
      if (lookupKey acc k).isSome then .unreachablePanic
      else buildRulesets fromRules rest (acc ++ [(k, ruleset)])

/-- PulsarEngine::new (engine.rs lines 57-77), taking the already loaded
raw rules (the directory load is covered by load_user_rules_from_dir):
parse and group the rules, then build one compiled ruleset per group. -/
def PulsarEngine.new (conditionParser : String → String → Except String (Event → Bool))
    (fromRules : List (Rule (Event → Bool)) → Except String Ruleset)
    (rawRules : List UserRule) : NewOutcome :=
  match parse_rules conditionParser rawRules with
  | .error e => .failed e
  | .ok groups => buildRulesets fromRules groups []

/-! Section 6: concrete inputs used by the witness theorems. -/

/-- A concrete internal address. -/
def addr0 : Addr := .v4 ⟨0, 0⟩

/-- A concrete generic socket address. -/
def sock0 : SocketAddr := .v4 ⟨⟨127, 0, 0, 1⟩, 80⟩

/-- A compiled rule whose predicate holds on every event. -/
def ruleAlways : Rule (Event → Bool) := ⟨"always", fun _ => true⟩

/-- A compiled rule whose predicate holds only on Bind payloads. -/
def ruleBindOnly : Rule (Event → Bool) :=
  ⟨"bind-only", fun e => match e.payload with | .bind _ => true | _ => false⟩

/-- A concrete two-rule ruleset. -/
def rulesetW : Ruleset := ⟨[ruleAlways, ruleBindOnly]⟩

/-- A concrete engine registering rulesetW for Connect events. -/
def engineW : PulsarEngine := ⟨⟨[(.connect, rulesetW)]⟩⟩

/-- A concrete non-threat Connect event. -/
def eventW : Event := ⟨⟨none⟩, .connect sock0⟩

/-- A concrete parsed DNS packet with one question and no answers. -/
def packetW : DnsPacket := ⟨[⟨"example.com", "A", "IN"⟩], []⟩

/-- A concrete DNS parser recognizing exactly the buffer with the single
byte 1. -/
def parseDnsW : List Nat → Option DnsPacket := fun d => if d = [1] then some packetW else none

/-- A concrete Send observation whose buffer parseDnsW recognizes. -/
def bpfEventW : BpfEvent := ⟨1, 0, .send addr0 addr0 [1] 1 .udp⟩

/-- A concrete filesystem with one readable file. -/
def readFileW : String → Except String String :=
  fun p => if p = "a.yaml" then .ok "body" else .error "denied"

/-- A concrete YAML deserializer rejecting every body. -/
def parseYamlBad : String → Except String (List UserRule) := fun _ => .error "bad"

/-- A concrete discovered path list. -/
def pathsW : List String := ["a.yaml", "b.yaml"]

/-- A concrete raw rule list with two rules of the same type. -/
def rawRulesW : List UserRule := [⟨"r1", "Exec", "a"⟩, ⟨"r2", "Exec", "b"⟩]

/-- A concrete condition compiler accepting everything. -/
def condParserW : String → String → Except String (Event → Bool) := fun _ _ => .ok (fun _ => true)

/-- A concrete Ruleset::from_rules that always succeeds. -/
def fromRulesW : List (Rule (Event → Bool)) → Except String Ruleset := fun rules => .ok ⟨rules⟩

/-- The grouping of rawRulesW under condParserW. -/
def groupsW : List (PayloadDiscriminant × List (Rule (Event → Bool))) :=
  [(.exec, [⟨"r1", fun _ => true⟩, ⟨"r2", fun _ => true⟩])]

/-! Section 7: claim theorems for the detection engine. -/

/-- C1: an Event whose header already carries a threat marker is discarded
by PulsarEngine::process before the ruleset lookup: whatever the compiled
Rulesets contain, no rule predicate is applied to it and no derived event
is emitted. -/
theorem process_discards_threat_marked (engine : PulsarEngine) (t : ThreatMarker) (p : Payload) :
    engine.process ⟨⟨some t⟩, p⟩ = ⟨[], []⟩ := rfl

/-- C2: on a non-threat-marked event, if the payload discriminant has a
registered ruleset then process emits one derived threat event per
matching rule — the emission list is exactly the map of the matched-rule
sublist, so K matches give K emissions each naming a distinct matched
rule — and if the discriminant has no registered ruleset then process
does nothing (the function is total, so no error is reported). -/
theorem process_multiplicity (engine : PulsarEngine) (event : Event)
    (h : event.header.threat = none) :
    (∀ rs, lookupKey engine.internal.rulesets
          (PayloadDiscriminant.fromPayload event.payload) = some rs →
        engine.process event =
          ⟨((rs.rules.filter (fun rule => rule.condition event)).map
              (fun rule => ⟨event, rule.name, none⟩)),
            rs.rules.map (fun rule => rule.name)⟩)
    ∧ (lookupKey engine.internal.rulesets
          (PayloadDiscriminant.fromPayload event.payload) = none →
        engine.process event = ⟨[], []⟩) := by
  constructor
  · intro rs hrs
    simp [PulsarEngine.process, h, hrs, Ruleset.matches]
  · intro hnone
    simp [PulsarEngine.process, h, hnone]

/-- C2 witness: the concrete engine and Connect event produce exactly one
emission for the one matching rule of the two registered ones. -/
theorem process_multiplicity_witness :
    engineW.process eventW = ⟨[⟨eventW, "always", none⟩], ["always", "bind-only"]⟩ := by
  have h := (process_multiplicity engineW eventW rfl).1 rulesetW rfl
  rw [h]
  rfl

/-! Section 8: claim theorems for the network monitor conversions. -/

/-- C4 counterexample: no function can read the original pid back off the
converted Payload of a Close record, because two Close records differing
only in original_pid convert to the same Payload — the conversion drops
the field instead of carrying it through. -/
theorem close_payload_has_no_pid :
    ¬ ∃ getPid : Payload → Nat, ∀ (pid : Nat) (src dst : Addr),
        getPid (NetworkEvent.toPayload (.close pid src dst)) = pid := by
  rintro ⟨f, hf⟩
  exact absurd ((hf 42 addr0 addr0).symm.trans (hf 7 addr0 addr0)) (by decide)

/-- C4 amended: the Payload built from a Close record is independent of
original_pid — it carries only the source and destination addresses, so
the pid is dropped by the conversion (in particular it is never replaced
by the observing process context's id: no pid at all reaches the
Payload). -/
theorem close_payload_drops_pid (pid : Nat) (src dst : Addr) :
    NetworkEvent.toPayload (.close pid src dst) =
      Payload.close (Addr.toSocketAddr src) (Addr.toSocketAddr dst) := rfl

/-- C5 counterexample: the round trip is not the identity on every
SocketAddr — an IPv6 address with nonzero flowinfo comes back with
flowinfo and scope_id zeroed, because the V6 arm of From Addr for
SocketAddr rebuilds the address from ip and port only. -/
theorem addr_roundtrip_not_identity :
    Addr.toSocketAddr (Addr.ofSocketAddr (.v6 ⟨1, 2, 3, 4⟩)) ≠ .v6 ⟨1, 2, 3, 4⟩ := by
  decide

/-- C5 amended: the round trip through Addr is the identity on every IPv4
socket address (the host-order 32-bit value is re-expanded into the four
network-order octets and the port preserved exactly) and on every IPv6
socket address whose flowinfo and scope_id are zero; for other IPv6
addresses, ip and port are preserved but flowinfo and scope_id come back
as zero. -/
theorem addr_roundtrip_partial_identity :
    (∀ o0 o1 o2 o3 port : Nat, o0 < 256 → o1 < 256 → o2 < 256 → o3 < 256 →
        Addr.toSocketAddr (Addr.ofSocketAddr (.v4 ⟨⟨o0, o1, o2, o3⟩, port⟩)) =
          .v4 ⟨⟨o0, o1, o2, o3⟩, port⟩)
    ∧ ∀ ip port fl sc : Nat,
        Addr.toSocketAddr (Addr.ofSocketAddr (.v6 ⟨ip, port, fl, sc⟩)) =
          .v6 ⟨ip, port, 0, 0⟩ := by
  constructor
  · intro o0 o1 o2 o3 port h0 h1 h2 h3
    simp only [Addr.ofSocketAddr, SockaddrIn.ofV4, Addr.toSocketAddr, SocketAddr.v4.injEq,
      SocketAddrV4.mk.injEq, Ipv4Addr.mk.injEq, Nat.shiftRight_eq_div_pow]
    refine ⟨⟨?_, ?_, ?_, ?_⟩, trivial⟩ <;> omega
  · intro ip port fl sc
    rfl

/-- C5 witness: the round trip is the identity at the concrete IPv4
address 127.0.0.1 port 80. -/
theorem addr_roundtrip_witness :
    Addr.toSocketAddr (Addr.ofSocketAddr sock0) = sock0 :=
  addr_roundtrip_partial_identity.1 127 0 0 1 80 (by decide) (by decide) (by decide) (by decide)

/-- C6 counterexample: no function can read the capture buffer back off
the converted Payload of a Send record — two Send records differing only
in the buffer convert to the same Payload, so the buffer is dropped
rather than carried as a second field. -/
theorem send_payload_has_no_buffer :
    ¬ ∃ getData : Payload → List Nat,
        ∀ (src dst : Addr) (data : List Nat) (n : Nat) (proto : Proto),
          getData (NetworkEvent.toPayload (.send src dst data n proto)) = data := by
  rintro ⟨f, hf⟩
  exact absurd ((hf addr0 addr0 [1] 1 .tcp).symm.trans (hf addr0 addr0 [2] 1 .tcp)) (by decide)

/-- C6 amended: the NetworkEvent Send and Receive records carry the
capture buffer and the logical count as two distinct fields, but the
conversion to Payload keeps only the logical count: len equals data_len
for every buffer and every count (including counts exceeding the
capture capacity, with no error), and the resulting Payload is
independent of the buffer contents. -/
theorem send_receive_payload_keeps_len (src dst : Addr) (data : List Nat) (dataLen : Nat)
    (proto : Proto) :
    NetworkEvent.toPayload (.send src dst data dataLen proto) =
        Payload.send (Addr.toSocketAddr src) (Addr.toSocketAddr dst) dataLen proto.isTcp
    ∧ NetworkEvent.toPayload (.receive src dst data dataLen proto) =
        Payload.receive (Addr.toSocketAddr src) (Addr.toSocketAddr dst) dataLen proto.isTcp
    ∧ ∀ data2 : List Nat,
        NetworkEvent.toPayload (.send src dst data2 dataLen proto) =
          NetworkEvent.toPayload (.send src dst data dataLen proto) :=
  ⟨rfl, rfl, fun _ => rfl⟩

/-! Section 9: claim theorems for rule compilation. -/

/-- C8: a raw rule whose type string resolves to no discriminant makes
parse_rule fail with PayloadTypeNotFound carrying that string, and with
no other error kind: the result is the same for every condition text and
every DSL parser, so the condition is never parsed. -/
theorem parse_rule_unknown_type {α : Type} (conditionParser : String → String → Except String α)
    (u : UserRule) (h : PayloadDiscriminant.fromStr u.ty = none) :
    parse_rule conditionParser u = .error (.payloadTypeNotFound u.ty)
    ∧ ∀ (otherParser : String → String → Except String α) (c : String),
        parse_rule otherParser ⟨u.name, u.ty, c⟩ = .error (.payloadTypeNotFound u.ty) := by
  constructor
  · simp [parse_rule, h]
  · intro otherParser c
    simp [parse_rule, h]

/-- C8 witness: a rule with the unsupported type Foobar and a malformed
condition fails with PayloadTypeNotFound Foobar even under a parser that
accepts everything. -/
theorem parse_rule_unknown_type_witness :
    parse_rule (fun _ c => Except.ok c) ⟨"r1", "Foobar", "(("⟩ =
      .error (.payloadTypeNotFound "Foobar") :=
  (parse_rule_unknown_type (fun _ c => Except.ok c) ⟨"r1", "Foobar", "(("⟩ (by decide)).1

/-! Section 10: claim theorem for DNS reconstruction. -/

/-- C3: for a Send or Receive observation (the events whose payload
exposes a capture buffer), collect_dns_if_any returns nothing when the
buffer is empty or fails to parse; on a successful parse it returns the
DnsQuery payload with exactly the converted question list when there are
questions and no answers, the DnsResponse payload with both lists when
there are answers, and nothing when there are neither questions nor
answers.  The return type is an Option, so no error is surfaced in any
case. -/
theorem collect_dns_classification (parseDns : List Nat → Option DnsPacket) (event : BpfEvent)
    (data : List Nat) (h : dnsData event.payload = some data) :
    (data = [] → collect_dns_if_any parseDns event = none)
    ∧ (parseDns data = none → collect_dns_if_any parseDns event = none)
    ∧ ∀ pkt, parseDns data = some pkt → data ≠ [] →
        ((pkt.questions ≠ [] → pkt.answers = [] →
            collect_dns_if_any parseDns event =
              some (.dnsQuery (pkt.questions.map toDnsQuestion)))
        ∧ (pkt.answers ≠ [] →
            collect_dns_if_any parseDns event =
              some (.dnsResponse (pkt.answers.map toDnsAnswer)
                (pkt.questions.map toDnsQuestion)))
        ∧ (pkt.questions = [] → pkt.answers = [] →
            collect_dns_if_any parseDns event = none)) := by
  refine ⟨?_, ?_, ?_⟩
  · intro hd
    subst hd
    simp [collect_dns_if_any, h]
  · intro hp
    by_cases hde : data.isEmpty <;> simp [collect_dns_if_any, h, hde, hp]
  · intro pkt hp hne
    have hde : data.isEmpty = false := by
      cases data with
      | nil => exact absurd rfl hne
      | cons a as => rfl
    refine ⟨?_, ?_, ?_⟩
    · intro hq ha
      have hqe : pkt.questions.isEmpty = false := by
        cases hqq : pkt.questions with
        | nil => exact absurd hqq hq
        | cons x xs => rfl
      simp [collect_dns_if_any, h, hde, hp, hqe, ha]
    · intro ha
      have hae : pkt.answers.isEmpty = false := by
        cases haa : pkt.answers with
        | nil => exact absurd haa ha
        | cons x xs => rfl
      by_cases hqe : pkt.questions.isEmpty <;>
        simp [collect_dns_if_any, h, hde, hp, hqe, hae]
    · intro hq ha
      simp [collect_dns_if_any, h, hde, hp, hq, ha]

/-- C3 witness: the concrete Send observation with buffer parsed into one
question and no answers yields the DnsQuery payload with exactly that
question. -/
theorem collect_dns_classification_witness :
    collect_dns_if_any parseDnsW bpfEventW =
      some (.dnsQuery [⟨"example.com", "A", "IN"⟩]) := by
  have h := ((collect_dns_classification parseDnsW bpfEventW [1] rfl).2.2 packetW
    (by decide) (by decide)).1 (by decide) rfl
  rw [h]
  rfl

/-! Section 11: all-or-nothing rule loading. -/

/-- If some discovered path is unreadable, the read loop aborts with a
RuleLoading error naming an unreadable path. -/
theorem collectRuleFiles_error_of_unreadable (readFile : String → Except String String) :
    ∀ paths : List String, (∃ p ∈ paths, ∃ e, readFile p = .error e) →
      ∃ p e, p ∈ paths ∧ readFile p = .error e ∧
        collectRuleFiles readFile paths = .error (.ruleLoading p e) := by
  intro paths
  induction paths with
  | nil =>
    rintro ⟨p, hp, _⟩
    simp at hp
  | cons q rest ih =>
    rintro ⟨p, hp, e, he⟩
    cases hq : readFile q with
    | error eq =>
      exact ⟨q, eq, List.mem_cons_self q rest, hq,
        by simp [collectRuleFiles, RuleFile.fromPath, hq]⟩
    | ok body =>
      have hpr : p ∈ rest := by
        rcases List.mem_cons.mp hp with h | h
        · subst h
          rw [hq] at he
          cases he
        · exact h
      obtain ⟨p2, e2, hmem, hre, hcol⟩ := ih ⟨p, hpr, e, he⟩
      exact ⟨p2, e2, List.mem_cons_of_mem _ hmem, hre,
        by simp [collectRuleFiles, RuleFile.fromPath, hq, hcol]⟩

/-- If every discovered path is readable, the read loop returns the files
in order, with the bodies readFile delivered. -/
theorem collectRuleFiles_all_ok (readFile : String → Except String String) :
    ∀ paths : List String, (∀ p ∈ paths, ∃ b, readFile p = .ok b) →
      collectRuleFiles readFile paths =
        .ok (paths.map (fun p => ⟨p, getBody readFile p⟩)) := by
  intro paths
  induction paths with
  | nil => intro _; rfl
  | cons q rest ih =>
    intro h
    obtain ⟨b, hb⟩ := h q (List.mem_cons_self q rest)
    have hrest := ih (fun p hp => h p (List.mem_cons_of_mem _ hp))
    simp [collectRuleFiles, RuleFile.fromPath, hb, hrest, getBody]

/-- If some read file fails to deserialize, the parse stage aborts with a
RuleParsing error naming such a file. -/
theorem parseRuleFiles_error_of_malformed (parseYaml : String → Except String (List UserRule)) :
    ∀ rfs : List RuleFile, (∃ rf ∈ rfs, ∃ e, parseYaml rf.body = .error e) →
      ∃ rf e, rf ∈ rfs ∧ parseYaml rf.body = .error e ∧
        parseRuleFiles parseYaml rfs = .error (.ruleParsing rf.path e) := by
  intro rfs
  induction rfs with
  | nil =>
    rintro ⟨rf, hrf, _⟩
    simp at hrf
  | cons q rest ih =>
    rintro ⟨rf, hrf, e, he⟩
    cases hq : parseYaml q.body with
    | error eq =>
      exact ⟨q, eq, List.mem_cons_self q rest, hq, by simp [parseRuleFiles, hq]⟩
    | ok rules =>
      have hpr : rf ∈ rest := by
        rcases List.mem_cons.mp hrf with h | h
        · subst h
          rw [hq] at he
          cases he
        · exact h
      obtain ⟨rf2, e2, hmem, hre, hpar⟩ := ih ⟨rf, hpr, e, he⟩
      exact ⟨rf2, e2, List.mem_cons_of_mem _ hmem, hre, by simp [parseRuleFiles, hq, hpar]⟩

/-- C7: rule loading is all-or-nothing.  If any discovered path is
unreadable, load_user_rules_from_dir fails with a RuleLoading error
naming an unreadable path; if every path is readable and any file body
fails to deserialize as a rule list, it fails with a RuleParsing error
naming such a file.  In both cases the result is an error, so no rule
list is returned: there is no skip-and-continue. -/
theorem load_user_rules_all_or_nothing (readFile : String → Except String String)
    (parseYaml : String → Except String (List UserRule)) (paths : List String) :
    ((∃ p ∈ paths, ∃ e, readFile p = .error e) →
      ∃ p e, p ∈ paths ∧ readFile p = .error e ∧
        load_user_rules_from_dir readFile parseYaml paths = .error (.ruleLoading p e))
    ∧ ((∀ p ∈ paths, ∃ b, readFile p = .ok b) →
      (∃ p ∈ paths, ∃ body e, readFile p = .ok body ∧ parseYaml body = .error e) →
      ∃ p body e, p ∈ paths ∧ readFile p = .ok body ∧ parseYaml body = .error e ∧
        load_user_rules_from_dir readFile parseYaml paths = .error (.ruleParsing p e)) := by
  constructor
  · intro hex
    obtain ⟨p, e, hmem, hre, hcol⟩ := collectRuleFiles_error_of_unreadable readFile paths hex
    exact ⟨p, e, hmem, hre, by simp [load_user_rules_from_dir, hcol]⟩
  · intro hall hex
    have hcol := collectRuleFiles_all_ok readFile paths hall
    obtain ⟨p, hmem, body, e, hre, hpe⟩ := hex
    have hbody : getBody readFile p = body := by simp [getBody, hre]
    have hrfmem : (⟨p, getBody readFile p⟩ : RuleFile) ∈
        paths.map (fun q => (⟨q, getBody readFile q⟩ : RuleFile)) :=
      List.mem_map_of_mem _ hmem
    obtain ⟨rf2, e2, hmem2, hpe2, hpar⟩ := parseRuleFiles_error_of_malformed parseYaml
      (paths.map (fun q => ⟨q, getBody readFile q⟩))
      ⟨⟨p, getBody readFile p⟩, hrfmem, e, by rw [hbody]; exact hpe⟩
    obtain ⟨p2, hp2mem, hp2eq⟩ := List.mem_map.mp hmem2
    obtain ⟨b2, hb2⟩ := hall p2 hp2mem
    have hget2 : getBody readFile p2 = b2 := by simp [getBody, hb2]
    refine ⟨p2, b2, e2, hp2mem, hb2, ?_, ?_⟩
    · rw [← hget2]
      have : rf2.body = getBody readFile p2 := by rw [← hp2eq]
      rw [← this]
      exact hpe2
    · have hpath : rf2.path = p2 := by rw [← hp2eq]
      rw [← hpath]
      simp [load_user_rules_from_dir, hcol, hpar]

/-- C7 witness: with a filesystem where b.yaml is unreadable, the load of
the two discovered paths fails with a RuleLoading error naming an
unreadable path. -/
theorem load_user_rules_all_or_nothing_witness :
    ∃ p e, p ∈ pathsW ∧ readFileW p = .error e ∧
      load_user_rules_from_dir readFileW parseYamlBad pathsW = .error (.ruleLoading p e) :=
  (load_user_rules_all_or_nothing readFileW parseYamlBad pathsW).1
    ⟨"b.yaml", by simp [pathsW], "denied", by rfl⟩

/-! Section 12: grouping invariants and the unreachable branch. -/

/-- Looking a key up after an entryPush: the pushed key now holds its old
group extended by the value, every other key is untouched. -/
theorem lookupKey_entryPush {κ β : Type} [DecidableEq κ] (m : List (κ × List β)) (k k0 : κ)
    (v : β) :
    lookupKey (entryPush m k v) k0 =
      if k0 = k then some ((lookupKey m k).getD [] ++ [v]) else lookupKey m k0 := by
  induction m with
  | nil => by_cases h : k0 = k <;> simp [entryPush, lookupKey, h]
  | cons hd tl ih =>
    obtain ⟨k1, vs⟩ := hd
    by_cases h1 : k = k1
    · subst h1
      by_cases h0 : k0 = k <;> simp [entryPush, lookupKey, h0]
    · have h1s : ¬ k1 = k := fun hh => h1 hh.symm
      by_cases h0 : k0 = k
      · subst h0
        simp [entryPush, h1, lookupKey, ih, h1s]
      · by_cases h01 : k0 = k1 <;> simp [entryPush, h1, lookupKey, h0, h01, ih, h1s]

/-- Selecting a key out of a cons. -/
theorem selKey_cons {κ β : Type} [DecidableEq κ] (k0 : κ) (v0 : β) (tl : List (κ × β)) (k : κ) :
    selKey ((k0, v0) :: tl) k = if k0 = k then v0 :: selKey tl k else selKey tl k := by
  by_cases h : k0 = k <;> simp [selKey, List.filter_cons, h]

/-- Content of the grouping fold: starting from any accumulator, a key
ends up holding its accumulated group followed by the selected values of
the pair list, in first-seen order. -/
theorem lookupKey_foldl_entryPush {κ β : Type} [DecidableEq κ] (l : List (κ × β)) :
    ∀ (acc : List (κ × List β)) (k : κ),
      lookupKey (l.foldl (fun m kv => entryPush m kv.1 kv.2) acc) k =
        match lookupKey acc k with
        | some vs => some (vs ++ selKey l k)
        | none => if (selKey l k).isEmpty then none else some (selKey l k) := by
  induction l with
  | nil =>
    intro acc k
    cases h : lookupKey acc k <;> simp [selKey, h]
  | cons hd tl ih =>
    obtain ⟨k0, v0⟩ := hd
    intro acc k
    rw [List.foldl_cons, ih, lookupKey_entryPush, selKey_cons]
    by_cases hk : k0 = k
    · subst hk
      simp only [if_pos rfl]
      cases h : lookupKey acc k0 <;> simp [h]
    · have hk2 : ¬ k = k0 := fun h => hk h.symm
      simp only [if_neg hk, if_neg hk2]

/-- Keys after an entryPush: unchanged when the key already has a group,
extended by the key otherwise. -/
theorem keys_entryPush {κ β : Type} [DecidableEq κ] (m : List (κ × List β)) (k : κ) (v : β) :
    (entryPush m k v).map Prod.fst =
      if k ∈ m.map Prod.fst then m.map Prod.fst else m.map Prod.fst ++ [k] := by
  induction m with
  | nil => simp [entryPush]
  | cons hd tl ih =>
    obtain ⟨k1, vs⟩ := hd
    by_cases h : k = k1
    · subst h
      simp [entryPush]
    · by_cases hm : k ∈ tl.map Prod.fst <;> simp [entryPush, h, ih, hm]

/-- A key looks up to none exactly when it is not among the keys. -/
theorem lookupKey_eq_none_iff {κ β : Type} [DecidableEq κ] (m : List (κ × β)) (k : κ) :
    lookupKey m k = none ↔ k ∉ m.map Prod.fst := by
  induction m with
  | nil => simp [lookupKey]
  | cons hd tl ih =>
    obtain ⟨k1, v⟩ := hd
    by_cases h : k = k1 <;> simp [lookupKey, h, ih]

/-- The grouping fold preserves distinctness of keys. -/
theorem keysNodup_foldl {κ β : Type} [DecidableEq κ] (l : List (κ × β)) :
    ∀ acc : List (κ × List β), (acc.map Prod.fst).Nodup →
      ((l.foldl (fun m kv => entryPush m kv.1 kv.2) acc).map Prod.fst).Nodup := by
  induction l with
  | nil =>
    intro acc h
    simpa using h
  | cons hd tl ih =>
    intro acc h
    rw [List.foldl_cons]
    apply ih
    rw [keys_entryPush]
    by_cases hm : hd.1 ∈ acc.map Prod.fst
    · simpa [hm] using h
    · simp [hm, List.nodup_append, h]

/-- The grouping step of parse_rules produces pairwise distinct keys. -/
theorem groupPairs_keys_nodup {κ β : Type} [DecidableEq κ] (l : List (κ × β)) :
    ((groupPairs l).map Prod.fst).Nodup :=
  keysNodup_foldl l [] (by simp)

/-- entryPush never creates an empty group. -/
theorem entryPush_nonempty {κ β : Type} [DecidableEq κ] (m : List (κ × List β)) (k : κ) (v : β)
    (h : ∀ kv ∈ m, kv.2 ≠ []) : ∀ kv ∈ entryPush m k v, kv.2 ≠ [] := by
  induction m with
  | nil =>
    intro kv hkv
    simp [entryPush] at hkv
    subst hkv
    simp
  | cons hd tl ih =>
    obtain ⟨k1, vs⟩ := hd
    intro kv hkv
    by_cases h1 : k = k1
    · subst h1
      simp [entryPush] at hkv
      rcases hkv with hkv | hkv
      · subst hkv
        simp
      · exact h kv (List.mem_cons_of_mem _ hkv)
    · simp [entryPush, h1] at hkv
      rcases hkv with hkv | hkv
      · subst hkv
        exact h (k1, vs) (List.mem_cons_self _ _)
      · exact ih (fun kv2 hkv2 => h kv2 (List.mem_cons_of_mem _ hkv2)) kv hkv

/-- Every group the grouping fold produces is nonempty. -/
theorem groupPairs_nonempty_foldl {κ β : Type} [DecidableEq κ] (l : List (κ × β)) :
    ∀ acc : List (κ × List β), (∀ kv ∈ acc, kv.2 ≠ []) →
      ∀ kv ∈ l.foldl (fun m kv => entryPush m kv.1 kv.2) acc, kv.2 ≠ [] := by
  induction l with
  | nil =>
    intro acc h
    simpa using h
  | cons hd tl ih =>
    intro acc h
    rw [List.foldl_cons]
    exact ih _ (entryPush_nonempty acc hd.1 hd.2 h)

/-- The ruleset-building loop never reaches the duplicate-insertion panic
when the keys of the accumulator and of the remaining groups are jointly
distinct. -/
theorem buildRulesets_no_panic (fromRules : List (Rule (Event → Bool)) → Except String Ruleset) :
    ∀ (groups : List (PayloadDiscriminant × List (Rule (Event → Bool))))
      (acc : List (PayloadDiscriminant × Ruleset)),
      (acc.map Prod.fst ++ groups.map Prod.fst).Nodup →
      (buildRulesets fromRules groups acc).isUnreachable = false := by
  intro groups
  induction groups with
  | nil =>
    intro acc h
    rfl
  | cons hd rest ih =>
    obtain ⟨k, rules⟩ := hd
    intro acc h
    cases hfr : fromRules rules with
    | error e => simp [buildRulesets, hfr, NewOutcome.isUnreachable]
    | ok rs =>
      have hk : k ∉ acc.map Prod.fst := by
        intro hmem
        obtain ⟨h1, h2, hdisj⟩ := List.nodup_append.mp (by simpa using h)
        exact hdisj hmem (List.mem_cons_self _ _)
      have hlk : lookupKey acc k = none := (lookupKey_eq_none_iff acc k).mpr hk
      simp only [buildRulesets, hfr, hlk, Option.isSome_none, Bool.false_eq_true, if_false]
      apply ih
      simpa [List.append_assoc] using h

/-- C9: when parse_rules succeeds, its grouping has pairwise distinct
keys, every group is nonempty, and each key's group is exactly the
compiled rules of that key in first-seen order; consequently the
duplicate-insertion branch marked unreachable in PulsarEngine::new is
never executed for any raw rule list, condition parser or ruleset
compiler. -/
theorem parse_rules_grouping_unique {α : Type}
    (conditionParser : String → String → Except String α) (rawRules : List UserRule) :
    (∀ groups, parse_rules conditionParser rawRules = .ok groups →
      ((groups.map Prod.fst).Nodup
        ∧ (∀ kv ∈ groups, kv.2 ≠ [])
        ∧ ∀ pairs, parseRuleList conditionParser rawRules = .ok pairs →
            ∀ k, lookupKey groups k =
              if (selKey pairs k).isEmpty then none else some (selKey pairs k)))
    ∧ ∀ (cp2 : String → String → Except String (Event → Bool))
        (fromRules : List (Rule (Event → Bool)) → Except String Ruleset),
        (PulsarEngine.new cp2 fromRules rawRules).isUnreachable = false := by
  constructor
  · intro groups hg
    unfold parse_rules at hg
    revert hg
    cases hpl : parseRuleList conditionParser rawRules with
    | error e =>
      intro hg
      simp at hg
    | ok pairs =>
      intro hg
      simp at hg
      subst hg
      refine ⟨groupPairs_keys_nodup pairs, groupPairs_nonempty_foldl pairs [] (by simp), ?_⟩
      intro pairs2 hpl2 k
      have hp2 : pairs2 = pairs := by simpa using hpl2.symm
      subst hp2
      rw [groupPairs, lookupKey_foldl_entryPush]
      simp [lookupKey]
  · intro cp2 fromRules
    unfold PulsarEngine.new
    cases hpr : parse_rules cp2 rawRules with
    | error e => rfl
    | ok groups =>
      apply buildRulesets_no_panic
      unfold parse_rules at hpr
      revert hpr
      cases hpl : parseRuleList cp2 rawRules with
      | error e =>
        intro hpr
        simp at hpr
      | ok pairs =>
        intro hpr
        simp at hpr
        subst hpr
        simpa using groupPairs_keys_nodup pairs

/-- C9 witness: the two concrete Exec rules group into a single Exec
entry and the engine builder runs without hitting the unreachable
branch. -/
theorem parse_rules_grouping_unique_witness :
    ((groupsW.map Prod.fst).Nodup ∧ ∀ kv ∈ groupsW, kv.2 ≠ [])
    ∧ (PulsarEngine.new condParserW fromRulesW rawRulesW).isUnreachable = false := by
  have h := parse_rules_grouping_unique condParserW rawRulesW
  have h1 := h.1 groupsW rfl
  exact ⟨⟨h1.1, h1.2.1⟩, h.2 condParserW fromRulesW⟩

/-! Section 13: rule discovery by extension. -/

/-- The read loop depends on the filesystem only at the paths it is given. -/
theorem collectRuleFiles_congr (readFile readFile2 : String → Except String String) :
    ∀ paths : List String, (∀ p ∈ paths, readFile2 p = readFile p) →
      collectRuleFiles readFile2 paths = collectRuleFiles readFile paths := by
  intro paths
  induction paths with
  | nil => intro _; rfl
  | cons q rest ih =>
    intro h
    have hq := h q (List.mem_cons_self q rest)
    have hrest := ih (fun p hp => h p (List.mem_cons_of_mem _ hp))
    simp [collectRuleFiles, RuleFile.fromPath, hq, hrest]

/-- C10: discovery matches only paths ending in the yaml extension: a
path with any other extension is never among the discovered files, its
presence in the directory listing changes nothing about the load result,
and the load result does not depend on that path's readability or
contents — so such a file is never read, never parsed, contributes no
rules and produces no error. -/
theorem rule_discovery_only_yaml (p : String)
    (h : strEndsWith p ("." ++ RULE_EXTENSION) = false)
    (listing : List String) (readFile : String → Except String String)
    (parseYaml : String → Except String (List UserRule)) :
    p ∉ discoverRuleFiles listing
    ∧ discoverRuleFiles (p :: listing) = discoverRuleFiles listing
    ∧ loadFromListing readFile parseYaml (p :: listing) =
        loadFromListing readFile parseYaml listing
    ∧ ∀ readFile2 : String → Except String String, (∀ q, q ≠ p → readFile2 q = readFile q) →
        loadFromListing readFile2 parseYaml listing =
          loadFromListing readFile parseYaml listing := by
  have hdisc : discoverRuleFiles (p :: listing) = discoverRuleFiles listing := by
    simp [discoverRuleFiles, List.filter_cons, h]
  refine ⟨?_, hdisc, ?_, ?_⟩
  · intro hmem
    have := (List.mem_filter.mp hmem).2
    rw [h] at this
    cases this
  · unfold loadFromListing
    rw [hdisc]
  · intro readFile2 hq
    unfold loadFromListing load_user_rules_from_dir
    rw [collectRuleFiles_congr readFile readFile2 (discoverRuleFiles listing) ?_]
    intro q hqmem
    apply hq
    intro hqp
    subst hqp
    have := (List.mem_filter.mp hqmem).2
    rw [h] at this
    cases this

/-- C10 witness: the yml file is not discovered even when listed, and
adding it to the listing leaves the load result unchanged. -/
theorem rule_discovery_only_yaml_witness :
    ("rules.yml" ∉ discoverRuleFiles ["rules.yml", "a.yaml"])
    ∧ loadFromListing readFileW parseYamlBad ("rules.yml" :: ["rules.yml", "a.yaml"]) =
        loadFromListing readFileW parseYamlBad ["rules.yml", "a.yaml"] := by
  have h := rule_discovery_only_yaml "rules.yml" (by decide) ["rules.yml", "a.yaml"]
    readFileW parseYamlBad
  exact ⟨h.1, h.2.2.1⟩

end Pulsar
